import Mathlib

/-!
Verification of the Gemini model fallback controller
(`src/gemini-fallback.py`) against its natural-language specification.

The Python class `GeminiModelFallback` is embedded shallowly:

* error texts are lists of characters, lower-casing is `Char.toLower`
  applied pointwise (the ASCII behaviour of Python `str.lower`);
* the mutable triple `(current_model_index, retry_count, cycle_count)`
  becomes the structure `FallbackState`;
* one iteration of the `while True` body of `execute` becomes the pure
  function `executeStep`, taking the `ExecResult` dictionary produced by
  `_execute_with_model` and the line the operator would type if `input`
  were called at the escalation prompt;
* the loop itself becomes `executeRun`, driven by a list of raw
  subprocess outcomes (one per invocation), returning the number of
  invocations performed and the terminal report, or `none` when the
  supplied outcome list is exhausted before the loop returns.

The class constants `MODEL_PRIORITIES`, `MAX_RETRIES_PER_MODEL` and
`TOTAL_CYCLE_LIMIT` are gathered in a `Config`; `shippedConfig` is the
configuration actually present in the source.
-/

namespace GeminiFallback

/-- Lower-casing of a text, character by character (Python `str.lower`
restricted to its ASCII behaviour, which is what the classifier relies on). -/
def toLowerStr (s : List Char) : List Char := s.map Char.toLower

/-- The quota indicator substrings, exactly as listed in
`_check_quota_error` (note the second entry keeps its capital Q, as in
the source). -/
def quota_indicators : List (List Char) :=
  [ "quota".toList
  , "Quota exceeded".toList
  , "limit".toList
  , "429".toList
  , "rate limit".toList ]

/-- `GeminiModelFallback._check_quota_error`: true iff some indicator is a
substring of the lower-cased error output. -/
def check_quota_error (error_output : List Char) : Bool :=
  quota_indicators.any (fun indicator => decide (indicator <:+: toLowerStr error_output))

/-- Configuration constants of the class: `MODEL_PRIORITIES`,
`MAX_RETRIES_PER_MODEL`, `TOTAL_CYCLE_LIMIT`. -/
structure Config where
  priorities : List String
  maxRetries : Nat
  cycleLimit : Nat
  deriving DecidableEq

/-- The constants shipped in the source. -/
def shippedConfig : Config :=
  { priorities :=
      [ "gemini-2.5-pro"
      , "gemini-2.5-flash"
      , "gemini-2.5-flash-preview-09-2025"
      , "gemini-2.5-flash-lite"
      , "gemini-1.5-pro"
      , "gemini-1.5-flash" ]
  , maxRetries := 3
  , cycleLimit := 3 }

/-- The mutable rotation state of the controller:
`current_model_index`, `retry_count`, `cycle_count`. -/
structure FallbackState where
  current_model_index : Nat
  retry_count : Nat
  cycle_count : Nat
  deriving DecidableEq

/-- The state set in `__init__`. -/
def initState : FallbackState :=
  { current_model_index := 0, retry_count := 0, cycle_count := 0 }

/-- `get_current_model`: the ranking entry at the active index (total via a
default, the invariant keeps the index in bounds). -/
def get_current_model (cfg : Config) (st : FallbackState) : String :=
  cfg.priorities.getD st.current_model_index defaultModel
where
  /-- Placeholder returned only out of bounds, a situation the Python code
  would turn into an uncaught `IndexError`. -/
  defaultModel : String := ""

/-- The dictionary returned by `_execute_with_model`. -/
structure ExecResult where
  success : Bool
  model : String
  output : List Char
  error : List Char
  returncode : Int
  deriving DecidableEq

/-- What the external `gemini` subprocess did on one invocation: it
completed with some stdout, stderr and exit status, or it overran the
timeout budget. -/
inductive RawOutcome where
  | completed (stdout stderr : List Char) (returncode : Int)
  | timedOut
  deriving DecidableEq

/-- `GeminiModelFallback._execute_with_model`: success is exit status 0; a
timeout yields a synthesized error text and status -1. -/
def execute_with_model (model : String) (prompt : String) (timeout : Nat)
    (raw : RawOutcome) : ExecResult :=
  match raw with
  | .completed stdout stderr returncode =>
      { success := returncode == 0
      , model := model
      , output := stdout
      , error := stderr
      , returncode := returncode }
  | .timedOut =>
      { success := false
      , model := model
      , output := []
      , error := ("Timeout after " ++ toString timeout ++ "s").toList
      , returncode := -1 }

/-- The terminal dictionaries `execute` can return: the success report
(lines 180-184), the all-models-exhausted report (lines 213-218) and the
non-quota report (lines 234-238). -/
inductive ExecReport where
  | success (model : String) (output error : List Char) (returncode : Int)
      (fallback_used : Bool) (cycles : Nat)
  | exhausted (models_attempted : List String) (last_error : List Char)
  | nonQuota (model : String) (raw_error : List Char) (models_attempted : List String)
  deriving DecidableEq

/-- What one pass through the loop body decides: run another invocation
from state `st` after sleeping `sleepSeconds` (0 when the source has no
`time.sleep` on that path), or return a terminal report. -/
inductive StepResult where
  | next (st : FallbackState) (sleepSeconds : Nat)
  | done (report : ExecReport)
  deriving DecidableEq

/-- A step result together with whether this pass read a line of operator
input (`input(...)` in the source). -/
structure StepOut where
  result : StepResult
  solicited : Bool
  deriving DecidableEq

/-- One iteration of the `while True` body of `execute` (lines 159-238),
with `_fallback_to_next_model` and `_reset_cycle` inlined.  `userInput` is
the line the operator would type if the escalation prompt were reached. -/
def executeStep (cfg : Config) (masterMode : Bool) (st : FallbackState)
    (res : ExecResult) (userInput : List Char) : StepOut :=
  if res.success then
    -- state is reset to (0,0,0) first; the report fields are then computed
    -- from the already-reset attributes, exactly as in the source
    let reset : FallbackState := initState
    { result := .done (.success res.model res.output res.error res.returncode
        (decide (reset.cycle_count > 0) || decide (reset.current_model_index > 0))
        reset.cycle_count)
    , solicited := false }
  else if check_quota_error res.error then
    let retry1 := st.retry_count + 1
    if retry1 ≥ cfg.maxRetries then
      if st.current_model_index < cfg.priorities.length - 1 then
        -- _fallback_to_next_model succeeded: advance, sleep 2, continue
        { result := .next
            { current_model_index := st.current_model_index + 1
            , retry_count := 0
            , cycle_count := st.cycle_count } 2
        , solicited := false }
      else
        let cycle1 := st.cycle_count + 1
        if cycle1 ≥ cfg.cycleLimit then
          -- _reset_cycle failed: escalate
          if masterMode then
            if toLowerStr userInput = "retry".toList then
              -- self.__init__(master_mode=True); continue  (no sleep)
              { result := .next initState 0, solicited := true }
            else
              { result := .done (.exhausted cfg.priorities res.error)
              , solicited := true }
          else
            { result := .done (.exhausted cfg.priorities res.error)
            , solicited := false }
        else
          -- _reset_cycle succeeded: wrap to index 0; the source falls
          -- through the loop here without any time.sleep
          { result := .next
              { current_model_index := 0, retry_count := 0, cycle_count := cycle1 } 0
          , solicited := false }
    else
      -- retry the same model after time.sleep(5)
      { result := .next
          { current_model_index := st.current_model_index
          , retry_count := retry1
          , cycle_count := st.cycle_count } 5
      , solicited := false }
  else
    { result := .done (.nonQuota res.model res.error cfg.priorities)
    , solicited := false }

/-- The `while True` loop of `execute`, driven by one raw subprocess
outcome (paired with a prospective operator input line) per invocation.
Returns the number of invocations performed and the terminal report, or
`none` when the outcome list runs out first. -/
def executeRun (cfg : Config) (masterMode : Bool) (prompt : String) (timeout : Nat) :
    FallbackState → List (RawOutcome × List Char) → Option (Nat × ExecReport)
  | _, [] => none
  | st, (raw, inp) :: rest =>
    let res := execute_with_model (get_current_model cfg st) prompt timeout raw
    match (executeStep cfg masterMode st res inp).result with
    | .done r => some (1, r)
    | .next st1 _ =>
      match executeRun cfg masterMode prompt timeout st1 rest with
      | some (k, r) => some (k + 1, r)
      | none => none

/-- The rotation states observed at attempt boundaries (top of the loop,
just before each invocation), in order. -/
def runStates (cfg : Config) (masterMode : Bool) (prompt : String) (timeout : Nat) :
    FallbackState → List (RawOutcome × List Char) → List FallbackState
  | st, [] => [st]
  | st, (raw, inp) :: rest =>
    let res := execute_with_model (get_current_model cfg st) prompt timeout raw
    st :: match (executeStep cfg masterMode st res inp).result with
    | .done _ => []
    | .next st1 _ => runStates cfg masterMode prompt timeout st1 rest

/-- The bounds invariant of the rotation state. -/
def Inv (cfg : Config) (st : FallbackState) : Prop :=
  st.retry_count < cfg.maxRetries ∧
  st.current_model_index < cfg.priorities.length ∧
  st.cycle_count < cfg.cycleLimit

instance (cfg : Config) (st : FallbackState) : Decidable (Inv cfg st) := by
  unfold Inv; infer_instance

/-- A raw outcome whose `_execute_with_model` result is a failure that
`_check_quota_error` classifies as a quota error (this depends only on the
outcome and the timeout budget, not on the model or prompt). -/
def rawQuota (timeout : Nat) : RawOutcome → Prop
  | .completed _ stderr returncode => returncode ≠ 0 ∧ check_quota_error stderr = true
  | .timedOut => check_quota_error (("Timeout after " ++ toString timeout ++ "s").toList) = true

instance (timeout : Nat) (raw : RawOutcome) : Decidable (rawQuota timeout raw) := by
  unfold rawQuota; cases raw <;> infer_instance

/-! ### Classifier lemmas -/

/-- The indicator list of claim C4, all five entries lower-cased as the
claim writes them. -/
def claim_indicators : List (List Char) :=
  [ "quota".toList
  , "quota exceeded".toList
  , "limit".toList
  , "429".toList
  , "rate limit".toList ]

/-- Modelled from the claim C10 wording: the simpler classifier that only
checks the three substrings "quota", "limit", "429". -/
def check_quota_error_simple (error_output : List Char) : Bool :=
  [ "quota".toList, "limit".toList, "429".toList ].any
    (fun indicator => decide (indicator <:+: toLowerStr error_output))

lemma toNat_ofNat_valid (n : Nat) (h : n.isValidChar) : (Char.ofNat n).toNat = n := by
  rw [Char.ofNat, dif_pos h]
  simp [Char.ofNatAux, Char.toNat, UInt32.toNat]

lemma toLower_eq (c : Char) :
    Char.toLower c = if c.toNat ≥ 65 ∧ c.toNat ≤ 90 then Char.ofNat (c.toNat + 32) else c := rfl

/-- ASCII lower-casing never produces a capital Q. -/
lemma toLower_ne_Q (c : Char) : Char.toLower c ≠ 'Q' := by
  intro h
  have h1 : (Char.toLower c).toNat = 81 := by rw [h]; rfl
  rw [toLower_eq] at h1
  by_cases hc : c.toNat ≥ 65 ∧ c.toNat ≤ 90
  · rw [if_pos hc] at h1
    rw [toNat_ofNat_valid] at h1
    · omega
    · exact Or.inl (by
        show c.toNat + 32 < 55296
        omega)
  · rw [if_neg hc] at h1
    simp only [Char.toNat] at *
    omega

lemma not_mem_Q_toLowerStr (e : List Char) : 'Q' ∉ toLowerStr e := by
  intro h
  rcases List.mem_map.mp h with ⟨c, _, hc⟩
  exact toLower_ne_Q c hc

/-- The mixed-case indicator "Quota exceeded" can never occur in a
lower-cased text. -/
lemma quota_exceeded_never_occurs (e : List Char) :
    ¬ ("Quota exceeded".toList <:+: toLowerStr e) := by
  intro h
  exact not_mem_Q_toLowerStr e (h.subset (by decide))

/-- The classifier fires exactly when one of "quota", "limit", "429"
occurs in the lower-cased text. -/
lemma check_quota_error_iff (e : List Char) :
    check_quota_error e = true ↔
      ("quota".toList <:+: toLowerStr e) ∨ ("limit".toList <:+: toLowerStr e) ∨
      ("429".toList <:+: toLowerStr e) := by
  unfold check_quota_error quota_indicators
  simp only [List.any_eq_true, List.mem_cons, List.not_mem_nil, or_false,
    decide_eq_true_eq]
  constructor
  · rintro ⟨ind, hmem, hinf⟩
    rcases hmem with rfl | rfl | rfl | rfl | rfl
    · exact Or.inl hinf
    · exact absurd hinf (quota_exceeded_never_occurs e)
    · exact Or.inr (Or.inl hinf)
    · exact Or.inr (Or.inr hinf)
    · exact Or.inr (Or.inl (List.IsInfix.trans (by decide) hinf))
  · rintro (h | h | h)
    · exact ⟨_, Or.inl rfl, h⟩
    · exact ⟨_, Or.inr (Or.inr (Or.inl rfl)), h⟩
    · exact ⟨_, Or.inr (Or.inr (Or.inr (Or.inl rfl))), h⟩

lemma check_quota_error_simple_iff (e : List Char) :
    check_quota_error_simple e = true ↔
      ("quota".toList <:+: toLowerStr e) ∨ ("limit".toList <:+: toLowerStr e) ∨
      ("429".toList <:+: toLowerStr e) := by
  unfold check_quota_error_simple
  simp only [List.any_eq_true, List.mem_cons, List.not_mem_nil, or_false,
    decide_eq_true_eq]
  constructor
  · rintro ⟨ind, hmem, hinf⟩
    rcases hmem with rfl | rfl | rfl
    · exact Or.inl hinf
    · exact Or.inr (Or.inl hinf)
    · exact Or.inr (Or.inr hinf)
  · rintro (h | h | h)
    · exact ⟨_, Or.inl rfl, h⟩
    · exact ⟨_, Or.inr (Or.inl rfl), h⟩
    · exact ⟨_, Or.inr (Or.inr rfl), h⟩

end GeminiFallback

namespace GeminiFallback

/-! ### Concrete scenario material shared by several claims -/

/-- A completed invocation that failed (exit status 1) with stderr "quota":
classified as a quota error. -/
def quotaStderrRaw : RawOutcome := .completed [] ("quota".toList) 1

/-- A completed invocation that succeeded (exit status 0) with stdout "ok". -/
def okStdoutRaw : RawOutcome := .completed ("ok".toList) [] 0

/-- The two-backend configuration of claims C1 and C5: ranking [A, B],
one attempt per backend, one rotation cycle. -/
def abConfig : Config := { priorities := ["A", "B"], maxRetries := 1, cycleLimit := 1 }

/-- On a failed result that the classifier does not count as a quota error,
the loop body returns the non-quota report at once, without reading
operator input, in either mode. -/
lemma executeStep_nonquota (cfg : Config) (masterMode : Bool) (st : FallbackState)
    (res : ExecResult) (inp : List Char)
    (hfail : res.success = false) (hclass : check_quota_error res.error = false) :
    executeStep cfg masterMode st res inp =
      { result := .done (.nonQuota res.model res.error cfg.priorities)
      , solicited := false } := by
  unfold executeStep
  rw [hfail, hclass]
  simp

/-- Claim C4: `_check_quota_error` returns QuotaExceeded exactly when the
lower-cased error text contains at least one of the substrings "quota",
"quota exceeded", "limit", "429", "rate limit"; in particular it returns
QuotaExceeded for "Error 429: rate limit exceeded" and Unrelated for
"permission denied". -/
theorem c4_classifier_matches_indicator_set :
    (∀ e : List Char,
      check_quota_error e = true ↔ ∃ ind ∈ claim_indicators, ind <:+: toLowerStr e) ∧
    check_quota_error ("Error 429: rate limit exceeded".toList) = true ∧
    check_quota_error ("permission denied".toList) = false := by
  refine ⟨fun e => ?_, by decide, by decide⟩
  rw [check_quota_error_iff]
  unfold claim_indicators
  constructor
  · rintro (h | h | h)
    · exact ⟨_, by simp, h⟩
    · exact ⟨"limit".toList, by simp, h⟩
    · exact ⟨"429".toList, by simp, h⟩
  · rintro ⟨ind, hmem, hinf⟩
    simp only [List.mem_cons, List.not_mem_nil, or_false] at hmem
    rcases hmem with rfl | rfl | rfl | rfl | rfl
    · exact Or.inl hinf
    · exact Or.inl (List.IsInfix.trans (by decide) hinf)
    · exact Or.inr (Or.inl hinf)
    · exact Or.inr (Or.inr hinf)
    · exact Or.inr (Or.inl (List.IsInfix.trans (by decide) hinf))

/-- Claim C10: the shipped classifier is extensionally equal to the simpler
three-substring classifier: the mixed-case indicator "Quota exceeded"
cannot occur in a lower-cased text, and every occurrence of "rate limit"
is already an occurrence of "limit". -/
theorem c10_classifier_equiv_simple :
    ∀ e : List Char, check_quota_error e = check_quota_error_simple e := by
  intro e
  cases hs : check_quota_error_simple e with
  | true => exact (check_quota_error_iff e).mpr ((check_quota_error_simple_iff e).mp hs)
  | false =>
    cases hc : check_quota_error e with
    | false => rfl
    | true =>
      exfalso
      have h3 := (check_quota_error_simple_iff e).mpr ((check_quota_error_iff e).mp hc)
      rw [hs] at h3
      exact Bool.false_ne_true h3

/-- Claim C1 (defect evidence): at the pre-reset state (index 1, retries 0,
cycles 0) — reached under `abConfig` after one quota failure — a Success
outcome yields a report whose `fallback_used` is `false` and whose `cycles`
is 0, although the pre-reset state has `current_model_index > 0`, so the
claimed pre-reset rule would require `rotationOccurred = true`: the source
resets the state to (0,0,0) first and only then derives both fields from
the already-reset attributes. -/
theorem c1_success_report_computed_after_reset :
    (executeStep abConfig false ⟨1, 0, 0⟩
        { success := true, model := "B", output := ("ok".toList), error := []
        , returncode := 0 } []).result =
      .done (.success "B" ("ok".toList) [] 0 false 0) ∧
    0 < (⟨1, 0, 0⟩ : FallbackState).current_model_index := by decide

/-- Claim C5: with ranking [A, B] and both limits 1, the outcome sequence
[QuotaExceeded, Success] ends in a Succeeded report after exactly 2
invocations, and that report carries `fallback_used = false` (the
`rotationOccurred` flag of the claim). -/
theorem c5_quota_then_success_two_invocations :
    executeRun abConfig false "p" 60 initState
        [(quotaStderrRaw, []), (okStdoutRaw, [])] =
      some (2, .success "B" ("ok".toList) [] 0 false 0) := by decide

/-- Claim C3 counterexample: a timeout with budget 429 synthesizes the
error text "Timeout after 429s", which `_check_quota_error` counts as a
quota error, so `execute` schedules a same-backend retry (sleep 5) instead
of escalating. -/
theorem c3_timeout_budget_429_is_retried :
    (executeStep shippedConfig false initState
        (execute_with_model "gemini-2.5-pro" "p" 429 .timedOut) []).result =
      .next ⟨0, 1, 0⟩ 5 := by decide

/-- Claim C3 (amended): for every rotation state, a failed invocation whose
error text is classified Unrelated — an ordinary failure, or a timeout
whose synthesized text "Timeout after Ns" contains no quota indicator —
makes `execute` return the failed non-quota report after that single
invocation, with no operator input read, no further invocation attempted,
and the pre-failure rotation state as the only observed attempt boundary. -/
theorem c3_nonquota_failure_escalates_directly
    (cfg : Config) (masterMode : Bool) (prompt : String) (timeout : Nat)
    (st : FallbackState) (raw : RawOutcome) (inp : List Char)
    (rest : List (RawOutcome × List Char)) (res : ExecResult)
    (hres : res = execute_with_model (get_current_model cfg st) prompt timeout raw)
    (hfail : res.success = false)
    (hclass : check_quota_error res.error = false) :
    executeRun cfg masterMode prompt timeout st ((raw, inp) :: rest) =
      some (1, .nonQuota res.model res.error cfg.priorities) ∧
    runStates cfg masterMode prompt timeout st ((raw, inp) :: rest) = [st] ∧
    (executeStep cfg masterMode st res inp).solicited = false := by
  have hstep := executeStep_nonquota cfg masterMode st res inp hfail hclass
  subst hres
  refine ⟨?_, ?_, ?_⟩
  · simp only [executeRun, hstep]
  · simp only [runStates, hstep]
  · rw [hstep]

/-- Witness for C3: a completed invocation failing with stderr
"permission denied" at the initial state returns the non-quota report after
one invocation. -/
theorem c3_nonquota_escalates_witness :
    executeRun shippedConfig false "p" 60 initState
        [(.completed [] ("permission denied".toList) 1, [])] =
      some (1, .nonQuota "gemini-2.5-pro" ("permission denied".toList)
        shippedConfig.priorities) := by
  have h := c3_nonquota_failure_escalates_directly shippedConfig false "p" 60
    initState (.completed [] ("permission denied".toList) 1) [] [] _ rfl
    (by decide) (by decide)
  exact h.1

/-- Claim C6 counterexample: at the wrap step (shipped constants, state
(5, 2, 0), quota failure) the loop re-enters at index 0 with no backoff at
all, not with the claimed 2 time units. -/
theorem c6_wrap_applies_no_backoff :
    (executeStep shippedConfig false ⟨5, 2, 0⟩
        { success := false, model := "gemini-1.5-flash", output := []
        , error := ("quota".toList), returncode := 1 } []).result =
      .next ⟨0, 0, 1⟩ 0 ∧
    ¬ (executeStep shippedConfig false ⟨5, 2, 0⟩
        { success := false, model := "gemini-1.5-flash", output := []
        , error := ("quota".toList), returncode := 1 } []).result =
      .next ⟨0, 0, 1⟩ 2 := by decide

/-- Claim C6 (amended): after a quota-classified failure the backoff before
the next attempt is 5 time units when staying on the same backend and 2
time units when advancing to the next backend, but wrapping from the last
backend back to index 0 re-enters the loop with no backoff delay. -/
theorem c6_backoff_delays (cfg : Config) (masterMode : Bool) (st : FallbackState)
    (res : ExecResult) (inp : List Char)
    (hfail : res.success = false) (hclass : check_quota_error res.error = true) :
    (st.retry_count + 1 < cfg.maxRetries →
      (executeStep cfg masterMode st res inp).result =
        .next ⟨st.current_model_index, st.retry_count + 1, st.cycle_count⟩ 5) ∧
    (cfg.maxRetries ≤ st.retry_count + 1 →
      st.current_model_index < cfg.priorities.length - 1 →
      (executeStep cfg masterMode st res inp).result =
        .next ⟨st.current_model_index + 1, 0, st.cycle_count⟩ 2) ∧
    (cfg.maxRetries ≤ st.retry_count + 1 →
      ¬ st.current_model_index < cfg.priorities.length - 1 →
      st.cycle_count + 1 < cfg.cycleLimit →
      (executeStep cfg masterMode st res inp).result =
        .next ⟨0, 0, st.cycle_count + 1⟩ 0) := by
  unfold executeStep
  rw [hfail, hclass]
  refine ⟨fun h1 => ?_, fun h1 h2 => ?_, fun h1 h2 h3 => ?_⟩
  · rw [if_neg (by simp), if_pos rfl, if_neg (by omega)]
  · rw [if_neg (by simp), if_pos rfl, if_pos (by omega), if_pos h2]
  · rw [if_neg (by simp), if_pos rfl, if_pos (by omega), if_neg h2, if_neg (by omega)]

/-- Witness for C6: at the initial state a quota failure under the shipped
constants stays on the same backend with a backoff of 5. -/
theorem c6_backoff_delays_witness :
    (executeStep shippedConfig false initState
        { success := false, model := "gemini-2.5-pro", output := []
        , error := ("quota".toList), returncode := 1 } []).result =
      .next ⟨0, 1, 0⟩ 5 := by
  have h := c6_backoff_delays shippedConfig false initState
    { success := false, model := "gemini-2.5-pro", output := []
    , error := ("quota".toList), returncode := 1 } [] rfl (by decide)
  exact h.1 (by decide)

/-- Claim C7 counterexample: in master mode an Unrelated failure escalates
and terminates without soliciting any operator input; even an input line
reading "retry" does not restart the controller. -/
theorem c7_unrelated_escalation_reads_no_input :
    executeStep shippedConfig true initState
        { success := false, model := "gemini-2.5-pro", output := []
        , error := ("permission denied".toList), returncode := 1 } ("retry".toList) =
      { result := .done (.nonQuota "gemini-2.5-pro" ("permission denied".toList)
          shippedConfig.priorities)
      , solicited := false } := by decide

/-- Claim C7 (amended): operator input is solicited only on the
rotation-exhaustion path into Escalated, and only in master mode: there, an
input whose lower-casing is "retry" resets the state to (0,0,0) and
re-enters the attempt loop, any other input terminates with the exhausted
report; in auto mode the same path terminates without reading input; and
(per the counterexample) the non-quota escalation path never solicits
input. -/
theorem c7_supervised_escalation_behaviour
    (cfg : Config) (st : FallbackState) (res : ExecResult) (inp : List Char)
    (hfail : res.success = false) (hclass : check_quota_error res.error = true)
    (hretry : cfg.maxRetries ≤ st.retry_count + 1)
    (hlast : ¬ st.current_model_index < cfg.priorities.length - 1)
    (hcycle : cfg.cycleLimit ≤ st.cycle_count + 1) :
    (toLowerStr inp = "retry".toList →
      executeStep cfg true st res inp = { result := .next initState 0, solicited := true }) ∧
    (toLowerStr inp ≠ "retry".toList →
      executeStep cfg true st res inp =
        { result := .done (.exhausted cfg.priorities res.error), solicited := true }) ∧
    executeStep cfg false st res inp =
      { result := .done (.exhausted cfg.priorities res.error), solicited := false } := by
  refine ⟨fun h1 => ?_, fun h1 => ?_, ?_⟩ <;>
    (unfold executeStep
     rw [hfail, hclass])
  · rw [if_neg (by simp), if_pos rfl, if_pos (by omega), if_neg hlast,
      if_pos (by omega), if_pos rfl, if_pos h1]
  · rw [if_neg (by simp), if_pos rfl, if_pos (by omega), if_neg hlast,
      if_pos (by omega), if_pos rfl, if_neg h1]
  · rw [if_neg (by simp), if_pos rfl, if_pos (by omega), if_neg hlast,
      if_pos (by omega), if_neg Bool.false_ne_true]

/-- Every continuing step preserves the bounds invariant: the continue
branches are exactly the same-backend retry, the advance to the next
backend, the cycle wrap and the master-mode restart, and each lands inside
the bounds again. -/
lemma inv_executeStep (cfg : Config) (masterMode : Bool) (st : FallbackState)
    (res : ExecResult) (inp : List Char) (st1 : FallbackState) (d : Nat)
    (hInv : Inv cfg st)
    (h : (executeStep cfg masterMode st res inp).result = .next st1 d) :
    Inv cfg st1 := by
  obtain ⟨hr, hi, hc⟩ := hInv
  unfold executeStep at h
  dsimp only [] at h
  split_ifs at h <;> simp only [StepResult.next.injEq] at h
  all_goals
    obtain ⟨h7, h8⟩ := h
    subst h7
    simp only [Inv, initState]
    omega

/-- The invariant holds at every attempt boundary of a run started inside
the bounds. -/
lemma inv_runStates (cfg : Config) (masterMode : Bool) (prompt : String)
    (timeout : Nat) (os : List (RawOutcome × List Char)) :
    ∀ st : FallbackState, Inv cfg st →
      ∀ s ∈ runStates cfg masterMode prompt timeout st os, Inv cfg s := by
  induction os with
  | nil =>
      intro st hInv s hs
      simp only [runStates, List.mem_singleton] at hs
      exact hs ▸ hInv
  | cons p rest ih =>
      intro st hInv s hs
      obtain ⟨raw, inp⟩ := p
      simp only [runStates] at hs
      rcases List.mem_cons.mp hs with rfl | hs1
      · exact hInv
      · revert hs1
        cases hstep : (executeStep cfg masterMode st
            (execute_with_model (get_current_model cfg st) prompt timeout raw)
            inp).result with
        | done r => intro hs1; exact absurd hs1 (List.not_mem_nil s)
        | next st1 d =>
            intro hs1
            exact ih st1 (inv_executeStep cfg masterMode st _ inp st1 d hInv hstep) s hs1

/-- Claim C2: starting from the initial state, along any outcome sequence
consisting only of failures classified QuotaExceeded, every rotation state
observed at an attempt boundary satisfies `retry_count < MAX_RETRIES`,
`current_model_index < len(ranking)` and `cycle_count < CYCLE_LIMIT`
(the lower bounds hold by the natural-number representation); reaching a
bound triggers the rotation, cycle-restart or escalation transition within
the same step, which is what the preservation argument establishes. -/
theorem c2_quota_invariant (cfg : Config) (masterMode : Bool) (prompt : String)
    (timeout : Nat) (os : List (RawOutcome × List Char))
    (hR : 0 < cfg.maxRetries) (hN : 0 < cfg.priorities.length)
    (hC : 0 < cfg.cycleLimit)
    (hq : ∀ p ∈ os, rawQuota timeout p.1) :
    ∀ s ∈ runStates cfg masterMode prompt timeout initState os, Inv cfg s :=
  inv_runStates cfg masterMode prompt timeout os initState ⟨hR, hN, hC⟩

/-- Witness for C2: under the shipped constants, two quota failures lead
through the boundary state (0, 1, 0), which satisfies the bounds. -/
theorem c2_quota_invariant_witness : Inv shippedConfig ⟨0, 1, 0⟩ := by
  have h := c2_quota_invariant shippedConfig false "p" 60
    [(quotaStderrRaw, []), (quotaStderrRaw, [])]
    (by decide) (by decide) (by decide) (by decide)
  exact h ⟨0, 1, 0⟩ (by decide)

/-- Number of invocations the shipped constants still allow from a given
state before escalation is forced: with 3 retries per model, 6 models and
3 cycles this is 54 at the initial state. -/
def remainingBudget (st : FallbackState) : Nat :=
  ((2 - st.cycle_count) * 6 + (5 - st.current_model_index)) * 3 + (3 - st.retry_count)

/-- The shipped bounds, in concrete numbers. -/
lemma inv_shipped (st : FallbackState) (hInv : Inv shippedConfig st) :
    st.retry_count < 3 ∧ st.current_model_index < 6 ∧ st.cycle_count < 3 := by
  obtain ⟨hr, hi, hc⟩ := hInv
  simp only [shippedConfig, List.length_cons, List.length_nil] at hr hi hc
  exact ⟨hr, hi, hc⟩

/-- Inside the bounds at least one more invocation is always budgeted. -/
lemma remainingBudget_pos (st : FallbackState) (hInv : Inv shippedConfig st) :
    1 ≤ remainingBudget st := by
  obtain ⟨hr, hi, hc⟩ := inv_shipped st hInv
  simp only [remainingBudget]
  omega

/-- In auto mode, under the shipped constants, every continuing step stays
inside the bounds and strictly decreases the remaining budget. -/
lemma budget_decreases (st : FallbackState) (res : ExecResult) (inp : List Char)
    (st1 : FallbackState) (d : Nat) (hInv : Inv shippedConfig st)
    (h : (executeStep shippedConfig false st res inp).result = .next st1 d) :
    Inv shippedConfig st1 ∧ remainingBudget st1 < remainingBudget st := by
  obtain ⟨hr, hi, hc⟩ := inv_shipped st hInv
  unfold executeStep at h
  dsimp only [] at h
  split_ifs at h <;> simp only [StepResult.next.injEq] at h
  all_goals
    obtain ⟨h7, h8⟩ := h
    subst h7
    simp only [Inv, initState, remainingBudget, shippedConfig, List.length_cons,
      List.length_nil]
    try simp only [shippedConfig, List.length_cons, List.length_nil] at *
    try omega

/-- Runs started inside the bounds with at least `remainingBudget` outcomes
available reach a terminal report within `remainingBudget` invocations. -/
lemma executeRun_total (prompt : String) (timeout : Nat) :
    ∀ (os : List (RawOutcome × List Char)) (st : FallbackState),
      Inv shippedConfig st → remainingBudget st ≤ os.length →
      ∃ k r, executeRun shippedConfig false prompt timeout st os = some (k, r) ∧
        k ≤ remainingBudget st := by
  intro os
  induction os with
  | nil =>
      intro st hInv hlen
      exfalso
      have hpos := remainingBudget_pos st hInv
      simp only [List.length_nil] at hlen
      omega
  | cons p rest ih =>
      intro st hInv hlen
      obtain ⟨raw, inp⟩ := p
      cases hstep : (executeStep shippedConfig false st
          (execute_with_model (get_current_model shippedConfig st) prompt timeout raw)
          inp).result with
      | done r =>
          refine ⟨1, r, ?_, remainingBudget_pos st hInv⟩
          simp only [executeRun, hstep]
      | next st1 d =>
          obtain ⟨hInv1, hlt⟩ := budget_decreases st _ inp st1 d hInv hstep
          obtain ⟨k, r, hrun, hk⟩ := ih st1 hInv1 (by
            simp only [List.length_cons] at hlen
            omega)
          refine ⟨k + 1, r, ?_, ?_⟩
          · simp only [executeRun, hstep, hrun]
          · omega

/-- Claim C8: in auto mode, whatever the sequence of invocation outcomes,
`execute` terminates after at most `MAX_RETRIES_PER_MODEL` times the number
of models times `TOTAL_CYCLE_LIMIT` invocations — 54 with the shipped
constants 3, 6, 3 — returning a terminal report. -/
theorem c8_execute_terminates_within_54 (prompt : String) (timeout : Nat)
    (os : List (RawOutcome × List Char)) (hlen : 54 ≤ os.length) :
    ∃ k r, executeRun shippedConfig false prompt timeout initState os = some (k, r) ∧
      k ≤ 54 :=
  executeRun_total prompt timeout os initState (by decide) hlen

/-- Witness for C8: 54 quota failures in a row make `execute` return a
terminal report within 54 invocations. -/
theorem c8_execute_terminates_witness :
    ∃ k r, executeRun shippedConfig false "p" 60 initState
        (List.replicate 54 (quotaStderrRaw, [])) = some (k, r) ∧ k ≤ 54 :=
  c8_execute_terminates_within_54 "p" 60 (List.replicate 54 (quotaStderrRaw, []))
    (by decide)

/-- The structured content of the escalation handoff message assembled by
`_notify_master` (source lines 114-144): backend last attempted, total
number of backends, configured retries per backend, the last error text
truncated to 150 characters, and the hours-until-reset estimate computed
as 24 minus the current local hour. -/
structure DiagnosticReport where
  last_attempted_model : String
  total_models : Nat
  retries_per_model : Nat
  last_error_truncated : List Char
  hours_until_reset : Nat
  deriving DecidableEq

/-- Modelled from the spec: the error-text interpolation on source line
132 writes the slice of the first 150 characters followed by a literal
ellipsis inside the same replacement field, which is not valid Python — the
module fails to parse — so the truncation here follows the evident intent
of that slice (and the spec wording: truncated last error text, bounded at
150 characters).  The other four fields are modelled directly from the
surrounding source lines: `get_current_model`, the ranking length,
`MAX_RETRIES_PER_MODEL`, and `24 - datetime.datetime.now().hour`. -/
def notify_master (cfg : Config) (st : FallbackState) (last_error : List Char)
    (current_hour : Nat) : DiagnosticReport :=
  { last_attempted_model := get_current_model cfg st
  , total_models := cfg.priorities.length
  , retries_per_model := cfg.maxRetries
  , last_error_truncated := last_error.take 150
  , hours_until_reset := 24 - current_hour }

/-- Claim C9 (intended report content): for every last error text, final
state and current hour, the diagnostic report carries the backend last
attempted, the total backend count, the configured retries per backend,
the last error truncated to at most 150 characters, and an
hours-until-reset estimate equal to 24 minus the current local hour.  The
source expression for the truncated field is itself a Python syntax error,
so this theorem evaluates the modelled intent, in evidence of the claim
being about behaviour the shipped text cannot produce. -/
theorem c9_notify_master_fields (cfg : Config) (st : FallbackState)
    (last_error : List Char) (current_hour : Nat) :
    (notify_master cfg st last_error current_hour).last_attempted_model =
        get_current_model cfg st ∧
    (notify_master cfg st last_error current_hour).total_models =
        cfg.priorities.length ∧
    (notify_master cfg st last_error current_hour).retries_per_model =
        cfg.maxRetries ∧
    (notify_master cfg st last_error current_hour).last_error_truncated =
        last_error.take 150 ∧
    (notify_master cfg st last_error current_hour).last_error_truncated.length ≤ 150 ∧
    (notify_master cfg st last_error current_hour).hours_until_reset =
        24 - current_hour := by
  refine ⟨rfl, rfl, rfl, rfl, ?_, rfl⟩
  simp only [notify_master, List.length_take]
  omega

/-- Witness for C7: under `abConfig` in master mode, exhaustion at state
(1, 0, 0) with operator input "RETRY" (upper case, lower-cased by the
source) restarts from the initial state. -/
theorem c7_supervised_escalation_witness :
    executeStep abConfig true ⟨1, 0, 0⟩
        { success := false, model := "B", output := []
        , error := ("quota".toList), returncode := 1 } ("RETRY".toList) =
      { result := .next initState 0, solicited := true } := by
  have h := c7_supervised_escalation_behaviour abConfig ⟨1, 0, 0⟩
    { success := false, model := "B", output := []
    , error := ("quota".toList), returncode := 1 } ("RETRY".toList)
    rfl (by decide) (by decide) (by decide) (by decide)
  exact h.1 (by decide)

end GeminiFallback
